import Mathlib

/-!
Verification of the Suricata signature parser (`src/detect-parse.c`) against
its natural-language specification.  Each C function relevant to a claim is
shallowly embedded as an executable Lean definition; machine integers are
modelled as `Nat`/`Int`, C doubly-linked lists as Lean `List`s (with node
identity given by the unique `idx` field), and fallible code as `Option`.
-/

set_option linter.unusedVariables false

/-! ## Protocol field length check (`SigParseProto`, detect-parse.c:1380-1387)

The C function receives the protocol field as a NUL-terminated byte string.
We model the string as the list of its bytes.  The external collaborators
(`DetectProtoParse`, `AppLayerGetProtoByName`) are not part of this file's
source; the embedding therefore takes the result of the remainder of the
function as an argument (`restRet`) and additionally reports how many
external lookups were attempted, so that the early-return structure of the
source is observable. -/

namespace ProtoLen

/-- Embeds `SigParseProto`: `if (strlen(protostr) > 32) return -1;` comes
before any call to `DetectProtoParse`/`AppLayerGetProtoByName`.  The pair
returned is (return value, number of external protocol lookups attempted);
`restLookups`/`restRet` stand for the behaviour of the rest of the function. -/
def SigParseProto (protostr : List Nat) (restRet : Int) (restLookups : Nat) : Int × Nat :=
  if protostr.length > 32 then (-1, 0)
  else (restRet, restLookups)

end ProtoLen

/-- C10: `SigParseProto` fails (returns -1) for every protocol field string
longer than 32 characters, before any protocol or app-layer protocol lookup
is attempted. -/
theorem claim_C10 (protostr : List Nat) (restRet : Int) (restLookups : Nat)
    (h : protostr.length > 32) :
    ProtoLen.SigParseProto protostr restRet restLookups = (-1, 0) := by
  unfold ProtoLen.SigParseProto
  simp [h]

/-- Witness for C10: a 33-byte protocol string is rejected with no lookup. -/
theorem claim_C10_witness :
    ProtoLen.SigParseProto (List.replicate 33 97) 0 5 = (-1, 0) :=
  claim_C10 (List.replicate 33 97) 0 5 (by decide)

/-! ## Control-character gate (`CheckAscii` and `SigParse`,
detect-parse.c:1834-1848 and 1862-1876)

The rule string is modelled as the list of its bytes (each `< 256`); C's
`char` is signed on the target platforms, so a byte `b` compares as the
integer `b` if `b < 128` and `b - 256` otherwise.  `SCCheckUtf8` is an
external collaborator (util-validate); its verdict is passed in as a
boolean.  To make the "no keyword setup runs" part of the source's early
returns observable, the embedded `SigParse` also returns the number of
keyword setups that ran; the behaviour of `SigParseBasics` plus the option
loop is abstracted by `restRet`/`restSetups`. -/

namespace AsciiGate

/-- Signed-`char` reading of a byte (two's complement, 8 bits). -/
def signedChar (b : Nat) : Int :=
  if b < 128 then (b : Int) else (b : Int) - 256

/-- Embeds `CheckAscii` (detect-parse.c:1834-1848): scan every byte; a byte
below 0x20 is only tolerated when it is LF, CR or TAB; 0x7f is refused. -/
def CheckAscii : List Nat → Bool
  | [] => true
  | b :: rest =>
      if signedChar b < 0x20 then
        if b = 0x0a ∨ b = 0x0d ∨ b = 0x09 then CheckAscii rest
        else false
      else if b = 0x7f then false
      else CheckAscii rest

/-- Embeds the head of `SigParse` (detect-parse.c:1862-1876): the UTF-8
check and `CheckAscii` run before `SigParseBasics` and before any option
(keyword setup) is processed.  Result: (return value, keyword setups run). -/
def SigParse (utf8ok : Bool) (sigstr : List Nat) (restRet : Int) (restSetups : Nat) :
    Int × Nat :=
  if ¬utf8ok then (-1, 0)
  else if ¬CheckAscii sigstr then (-1, 0)
  else (restRet, restSetups)

/-- A byte the claim says must be refused: an ASCII control character other
than TAB/LF/CR, or DEL. -/
def badByte (b : Nat) : Prop :=
  (b < 0x20 ∧ b ≠ 0x0a ∧ b ≠ 0x0d ∧ b ≠ 0x09) ∨ b = 0x7f

instance : DecidablePred badByte := fun b => by unfold badByte; infer_instance

theorem checkAscii_refuses {sigstr : List Nat} (h : ∃ b ∈ sigstr, badByte b) :
    CheckAscii sigstr = false := by
  obtain ⟨b, hmem, hbad⟩ := h
  induction sigstr with
  | nil => cases hmem
  | cons x rest ih =>
      unfold CheckAscii
      rcases List.mem_cons.1 hmem with rfl | hrest
      · rcases hbad with ⟨hlt, h1, h2, h3⟩ | h7f
        · have hs : signedChar b < 0x20 := by
            unfold signedChar
            split <;> omega
          simp only [hs, if_pos]
          have : ¬(b = 0x0a ∨ b = 0x0d ∨ b = 0x09) := by
            intro hc; rcases hc with hc | hc | hc <;> simp_all
          simp [this]
        · subst h7f
          have hs : ¬(signedChar 0x7f < 0x20) := by unfold signedChar; decide
          simp [hs]
      · split
        · split
          · exact ih hrest
          · rfl
        · split
          · rfl
          · exact ih hrest

end AsciiGate

/-- C9: `SigParse` rejects, before tokenizing any header field or running
any keyword setup, every rule string that is not valid UTF-8 or contains an
ASCII control character other than TAB (0x09), LF (0x0a) or CR (0x0d), or
contains DEL (0x7f): it returns -1 with zero keyword setups run. -/
theorem claim_C9 (utf8ok : Bool) (sigstr : List Nat) (restRet : Int) (restSetups : Nat)
    (h : utf8ok = false ∨ ∃ b ∈ sigstr, AsciiGate.badByte b) :
    AsciiGate.SigParse utf8ok sigstr restRet restSetups = (-1, 0) := by
  unfold AsciiGate.SigParse
  rcases h with rfl | hbad
  · simp
  · rw [AsciiGate.checkAscii_refuses hbad]
    simp

/-- Witness for C9: a rule containing the byte 0x01 is rejected with no
keyword setup run, even though the UTF-8 check passes. -/
theorem claim_C9_witness :
    AsciiGate.SigParse true [97, 1, 98] 0 7 = (-1, 0) :=
  claim_C9 true [97, 1, 98] 0 7 (Or.inr ⟨1, by decide, by decide⟩)

/-! ## Silent keyword errors (`SigParseOptions`, detect-parse.c:1072-1084)

A keyword setup callback signals *SilentError* by returning -2.  The option
parser then consults the engine's per-keyword `sm_types_silent_error` map:
on the first occurrence the flag is set and the function returns -1 (a loud
*ParseError*, so the caller reports the rule error); on every further
occurrence it returns -2, which the `SigInitHelper` caller treats as a
silent failure (`sigerror_silent`).  We embed the `setup_ret < 0` tail of
`SigParseOptions` as a function of the current flag and the setup return
value, producing the return value and the updated flag. -/

namespace OptionParser

/-- Embeds detect-parse.c:1072-1084: the handling of a negative
`setup_ret` inside `SigParseOptions`, for one keyword type.  Input: the
current `de_ctx->sm_types_silent_error[idx]` value and the setup callback's
return value; output: `SigParseOptions`' return value and the updated flag. -/
def SigParseOptionsSetupRet (silentFlag : Bool) (setup_ret : Int) : Int × Bool :=
  if setup_ret < 0 then
    if setup_ret = -2 then
      if ¬silentFlag then (-1, true)
      else (-2, silentFlag)
    else (setup_ret, silentFlag)
  else (setup_ret, silentFlag)

/-- Iterates `SigParseOptionsSetupRet` over `n` consecutive *SilentError*
occurrences of the same keyword type, collecting the return values. -/
def runSilentOccurrences (silentFlag : Bool) : Nat → List Int
  | 0 => []
  | n + 1 =>
      let r := SigParseOptionsSetupRet silentFlag (-2)
      r.1 :: runSilentOccurrences r.2 n

end OptionParser

/-- Counterexample to C4: in a fresh engine build (flag unset) the *first*
*SilentError* occurrence makes `SigParseOptions` return -1 — the loud
*ParseError* path — not the silent -2; it is the *second* occurrence that
returns silently.  This is the opposite of the claimed order. -/
theorem claim_C4_counterexample :
    (OptionParser.SigParseOptionsSetupRet false (-2)).1 = -1 ∧
      (OptionParser.SigParseOptionsSetupRet false (-2)).1 ≠ -2 ∧
      (OptionParser.SigParseOptionsSetupRet true (-2)).1 = -2 := by
  decide

/-- C4 (amended): when a keyword setup returns *SilentError*, the option
parser propagates a loud *ParseError* (-1) only on the first occurrence of
that keyword type within the engine build — setting the per-keyword flag —
and returns silently (-2) on every further occurrence; hence the
per-keyword error message is emitted at most once per engine build. -/
theorem claim_C4_amended_silent_once (n : Nat) :
    OptionParser.runSilentOccurrences false (n + 1) =
      -1 :: List.replicate n (-2) := by
  have hstep : ∀ m : Nat, OptionParser.runSilentOccurrences true m = List.replicate m (-2) := by
    intro m
    induction m with
    | zero => rfl
    | succ k ih =>
        show (-2 : Int) :: OptionParser.runSilentOccurrences true k = _
        rw [ih]
        rfl
  show (-1 : Int) :: OptionParser.runSilentOccurrences true n = _
  rw [hstep]

/-! ## Action and action-scope parsing (`ActionStringToFlags` and
`SigParseAction`, detect-parse.c:1513-1543 and 1556-1646)

C strings are modelled as `List Char`.  The `ACTION_*` flag bits and the
`ACTION_SCOPE_*` enum live in headers outside this file's source; they are
modelled as distinct bits / distinct numbers, faithful to their use as a
bitmask resp. an enum.  `SigParseActionRejectValidate` depends only on the
build configuration (libnet availability), so it is passed in as the
boolean `reject_ok`. -/

namespace ActionParse

def chars (s : String) : List Char := s.data

def ACTION_ALERT : Nat := 0x01
def ACTION_DROP : Nat := 0x02
def ACTION_REJECT : Nat := 0x04
def ACTION_REJECT_DST : Nat := 0x08
def ACTION_REJECT_BOTH : Nat := 0x10
def ACTION_PASS : Nat := 0x20
def ACTION_CONFIG : Nat := 0x40
def ACTION_ACCEPT : Nat := 0x80

def ACTION_SCOPE_PACKET : Nat := 1
def ACTION_SCOPE_FLOW : Nat := 2
def ACTION_SCOPE_TX : Nat := 3
def ACTION_SCOPE_HOOK : Nat := 4

/-- ASCII lower-casing of one character, as C `tolower` does for the
strings involved here. -/
def lowerChar (c : Char) : Char :=
  if 'A' ≤ c ∧ c ≤ 'Z' then Char.ofNat (c.toNat + 32) else c

/-- `strcasecmp(a, b) == 0`. -/
def strcaseeq (a b : List Char) : Bool :=
  a.map lowerChar == b.map lowerChar

/-- Splits at every `:`, keeping empty segments (dropped afterwards, which
reproduces `strtok_r`'s skipping of leading/repeated delimiters). -/
def splitColon : List Char → List (List Char)
  | [] => [[]]
  | c :: rest =>
      let r := splitColon rest
      if c = ':' then [] :: r
      else (c :: r.headI) :: r.tail

/-- The `strtok_r` tokenisation of the action field: list of the non-empty
`:`-separated segments. -/
def colonTokens (s : List Char) : List (List Char) :=
  (splitColon s).filter (fun t => t ≠ [])

/-- Embeds `ActionStringToFlags` (detect-parse.c:1513-1543).  Returns 0 on
error, the action's flag combination otherwise;  `reject_ok` is the result
of `SigParseActionRejectValidate`. -/
def ActionStringToFlags (reject_ok : Bool) (action : List Char) : Nat :=
  if strcaseeq action (chars "alert") then ACTION_ALERT
  else if strcaseeq action (chars "drop") then ACTION_DROP ||| ACTION_ALERT
  else if strcaseeq action (chars "pass") then ACTION_PASS
  else if strcaseeq action (chars "reject") || strcaseeq action (chars "rejectsrc") then
    if ¬reject_ok then 0 else ACTION_REJECT ||| ACTION_DROP ||| ACTION_ALERT
  else if strcaseeq action (chars "rejectdst") then
    if ¬reject_ok then 0 else ACTION_REJECT_DST ||| ACTION_DROP ||| ACTION_ALERT
  else if strcaseeq action (chars "rejectboth") then
    if ¬reject_ok then 0 else ACTION_REJECT_BOTH ||| ACTION_DROP ||| ACTION_ALERT
  else if strcaseeq action (chars "config") then ACTION_CONFIG
  else if strcaseeq action (chars "accept") then ACTION_ACCEPT
  else 0

/-- Embeds `SigParseAction` (detect-parse.c:1556-1646).  On success returns
the pair (action flags, action scope); `none` is the -1 error return.  The
initial `strlcpy` into `char action[32]` truncates to 31 characters; the
scope token is compared case-sensitively (`strcmp`), the action name
case-insensitively (`strcasecmp` inside `ActionStringToFlags`). -/
def SigParseAction (firewall_rule reject_ok : Bool) (action_in : List Char) :
    Option (Nat × Nat) :=
  let action := action_in.take 31
  let toks := colonTokens action
  match toks.head? with
  | none => none
  | some a =>
    let flags := ActionStringToFlags reject_ok a
    if flags = 0 then none
    else
      let scopeResult : Option Nat :=
        match toks[1]? with
        | none => some 0
        | some o =>
          if flags &&& (ACTION_DROP ||| ACTION_PASS) ≠ 0 then
            if o = chars "packet" then some ACTION_SCOPE_PACKET
            else if o = chars "flow" then some ACTION_SCOPE_FLOW
            else none
          else if flags &&& ACTION_ACCEPT ≠ 0 then
            if o = chars "packet" then some ACTION_SCOPE_PACKET
            else if o = chars "hook" then some ACTION_SCOPE_HOOK
            else if o = chars "tx" then some ACTION_SCOPE_TX
            else if o = chars "flow" then some ACTION_SCOPE_FLOW
            else none
          else if flags &&& ACTION_CONFIG ≠ 0 then
            if o = chars "packet" then some ACTION_SCOPE_PACKET
            else none
          else none
      match scopeResult with
      | none => none
      | some action_scope =>
        if firewall_rule ∧ action_scope = 0 then none
        else if ¬firewall_rule ∧ flags &&& ACTION_ACCEPT ≠ 0 then none
        else if firewall_rule ∧ flags &&& ACTION_PASS ≠ 0 then none
        else some (flags, action_scope)

/-- The actions whose flag set contains `ACTION_DROP` or `ACTION_PASS`,
i.e. the actions routed to the packet/flow scope branch of the source. -/
def dropLikeActions : List (List Char) :=
  [chars "drop", chars "pass", chars "reject", chars "rejectsrc",
   chars "rejectdst", chars "rejectboth"]

def allActions : List (List Char) :=
  [chars "alert", chars "drop", chars "pass", chars "reject", chars "rejectsrc",
   chars "rejectdst", chars "rejectboth", chars "config", chars "accept"]

def allScopes : List (List Char) :=
  [chars "packet", chars "flow", chars "tx", chars "hook"]

/-- Builds the textual `action:scope` input. -/
def withScope (a o : List Char) : List Char := a ++ ':' :: o

end ActionParse

/-- Counterexample to C5: the claim says the reject actions accept no scope
at all, but `reject`'s flag set includes `ACTION_DROP`, so the scope branch
for drop/pass accepts `reject:packet` (and `reject:flow`); the same holds
for rejectsrc/rejectdst/rejectboth. -/
theorem claim_C5_counterexample :
    ActionParse.SigParseAction false true
        (ActionParse.chars "reject:packet") =
      some (ActionParse.ACTION_REJECT ||| ActionParse.ACTION_DROP |||
              ActionParse.ACTION_ALERT,
            ActionParse.ACTION_SCOPE_PACKET) := by
  decide

/-- C5 (amended): `SigParseAction` accepts an action scope as follows:
drop, pass and the reject actions (whose flags include DROP) accept the
scopes packet and flow; accept accepts packet, flow, tx and hook; config
accepts only packet; alert accepts no scope; additionally an explicit scope
is mandatory for firewall rules, `accept` is a parse error for non-firewall
rules, and `pass` is a parse error for firewall rules. -/
theorem claim_C5_amended :
    (∀ a ∈ ActionParse.dropLikeActions, ∀ rj : Bool,
        (rj || (a = ActionParse.chars "drop" || a = ActionParse.chars "pass")) = true →
          ActionParse.SigParseAction false rj
              (ActionParse.withScope a (ActionParse.chars "packet")) =
            some (ActionParse.ActionStringToFlags rj a, ActionParse.ACTION_SCOPE_PACKET) ∧
          ActionParse.SigParseAction false rj
              (ActionParse.withScope a (ActionParse.chars "flow")) =
            some (ActionParse.ActionStringToFlags rj a, ActionParse.ACTION_SCOPE_FLOW) ∧
          ActionParse.SigParseAction false rj
              (ActionParse.withScope a (ActionParse.chars "tx")) = none ∧
          ActionParse.SigParseAction false rj
              (ActionParse.withScope a (ActionParse.chars "hook")) = none) ∧
    (∀ o ∈ ActionParse.allScopes,
        (ActionParse.SigParseAction true true
            (ActionParse.withScope (ActionParse.chars "accept") o)).isSome = true ∧
        ActionParse.SigParseAction false true
            (ActionParse.withScope (ActionParse.chars "accept") o) = none) ∧
    (ActionParse.SigParseAction false true
        (ActionParse.withScope (ActionParse.chars "config") (ActionParse.chars "packet")) =
      some (ActionParse.ACTION_CONFIG, ActionParse.ACTION_SCOPE_PACKET)) ∧
    (∀ o ∈ [ActionParse.chars "flow", ActionParse.chars "tx", ActionParse.chars "hook"],
        ActionParse.SigParseAction false true
            (ActionParse.withScope (ActionParse.chars "config") o) = none) ∧
    (∀ o ∈ ActionParse.allScopes,
        ActionParse.SigParseAction false true
            (ActionParse.withScope (ActionParse.chars "alert") o) = none) ∧
    (ActionParse.SigParseAction false true (ActionParse.chars "alert") =
      some (ActionParse.ACTION_ALERT, 0)) ∧
    (∀ a ∈ ActionParse.allActions,
        ActionParse.SigParseAction true true a = none) ∧
    (ActionParse.SigParseAction false true (ActionParse.chars "accept") = none) ∧
    (∀ o ∈ [ActionParse.chars "packet", ActionParse.chars "flow"],
        ActionParse.SigParseAction true true
            (ActionParse.withScope (ActionParse.chars "pass") o) = none) := by
  decide

/-! ## Detect-table derivation (`DetectRuleSetTable`, detect-parse.c:2490-2518)

The `SigType`, hook and `DetectTable` enums live in detect.h; they are
modelled as inductives with the constructors the function inspects.  The
`BUG_ON(1)` abort for a firewall rule whose type is neither PKT nor APP_TX
is modelled as `none`. -/

namespace TableDerive

inductive SigType where
  | NOT_SET | IPONLY | LIKE_IPONLY | PKT | PKT_STREAM | STREAM | APPLAYER | APP_TX
deriving DecidableEq

inductive SignatureHookPkt where
  | NOT_SET | ALL | FLOW_START | PRE_FLOW | PRE_STREAM
deriving DecidableEq

/-- `SignatureHook`: either not set, a packet hook, or an app hook
(alproto and progress). -/
inductive SignatureHook where
  | notSet
  | pkt (ph : SignatureHookPkt)
  | app (alproto : Nat) (app_progress : Nat)
deriving DecidableEq

inductive DetectTable where
  | PACKET_PRE_FLOW | PACKET_PRE_STREAM | PACKET_FILTER | PACKET_TD
  | APP_FILTER | APP_TD
deriving DecidableEq

/-- Embeds `DetectRuleSetTable` (detect-parse.c:2490-2518); the inputs are
the fields it reads: `s->flags & SIG_FLAG_FIREWALL`, `s->type` and
`s->init_data->hook`. -/
def DetectRuleSetTable (firewall : Bool) (type : SigType) (hook : SignatureHook) :
    Option DetectTable :=
  if firewall then
    if type = SigType.PKT then
      if hook matches SignatureHook.pkt SignatureHookPkt.PRE_STREAM then
        some DetectTable.PACKET_PRE_STREAM
      else if hook matches SignatureHook.pkt SignatureHookPkt.PRE_FLOW then
        some DetectTable.PACKET_PRE_FLOW
      else
        some DetectTable.PACKET_FILTER
    else if type = SigType.APP_TX then
      some DetectTable.APP_FILTER
    else
      none
  else
    if type ≠ SigType.APP_TX then
      some DetectTable.PACKET_TD
    else
      some DetectTable.APP_TD

/-- The specification's table from §6, written as the spec states it: a
map from (firewall, type, hook) rows to a detect table. -/
def detectTableSpec (firewall : Bool) (type : SigType) (hook : SignatureHook) :
    Option DetectTable :=
  match firewall, type, hook with
  | true, SigType.PKT, SignatureHook.pkt SignatureHookPkt.PRE_STREAM =>
      some DetectTable.PACKET_PRE_STREAM
  | true, SigType.PKT, SignatureHook.pkt SignatureHookPkt.PRE_FLOW =>
      some DetectTable.PACKET_PRE_FLOW
  | true, SigType.PKT, _ => some DetectTable.PACKET_FILTER
  | true, SigType.APP_TX, _ => some DetectTable.APP_FILTER
  | true, _, _ => none
  | false, SigType.APP_TX, _ => some DetectTable.APP_TD
  | false, _, _ => some DetectTable.PACKET_TD

end TableDerive

/-- C7: the derived `detect_table` is a deterministic function of
(firewall flag, signature type, hook), agreeing with the specification's
table: firewall+PKT+pkt/pre_stream gives PACKET_PRE_STREAM,
firewall+PKT+pkt/pre_flow gives PACKET_PRE_FLOW, firewall+PKT otherwise
gives PACKET_FILTER, firewall+APP_TX gives APP_FILTER, non-firewall APP_TX
gives APP_TD, and every other non-firewall type gives PACKET_TD. -/
theorem claim_C7 (firewall : Bool) (type : TableDerive.SigType)
    (hook : TableDerive.SignatureHook) :
    TableDerive.DetectRuleSetTable firewall type hook =
      TableDerive.detectTableSpec firewall type hook := by
  cases firewall <;> cases type <;>
    (first
      | rfl
      | (cases hook with
          | notSet => rfl
          | pkt ph => cases ph <;> rfl
          | app a p => rfl))

/-! ## TCP buffer consolidation (`SigConsolidateTcpBuffer`,
detect-parse.c:2718-2748, called from `SigValidateConsolidate`)

Only the fields the function reads are modelled: the IP-protocol bitmap
(`s->proto.proto`, a predicate on protocol numbers), the signature flag
word, and the two classical lists it walks (`DETECT_SM_LIST_PMATCH` and
`DETECT_SM_LIST_MATCH`) with each match's keyword type and, for
`DETECT_CONTENT`, the `DetectContentData` flag word.  The flag/keyword
constants live in headers outside this file's source and are modelled as
distinct bits resp. distinct numbers. -/

namespace TcpConsolidate

def IPPROTO_TCP : Nat := 6
def SIG_FLAG_REQUIRE_PACKET : Nat := 2 ^ 8
def SIG_FLAG_REQUIRE_STREAM : Nat := 2 ^ 9
def DETECT_CONTENT : Nat := 1
def DETECT_STREAM_SIZE : Nat := 2
def DETECT_CONTENT_DEPTH : Nat := 2 ^ 2
def DETECT_CONTENT_OFFSET : Nat := 2 ^ 3

structure SigMatch where
  type : Nat
  /-- `((DetectContentData *)sm->ctx)->flags`, meaningful when
  `type = DETECT_CONTENT`. -/
  content_flags : Nat
deriving DecidableEq

structure Signature where
  /-- `s->proto.proto` bitmap: true iff the protocol number's bit is set. -/
  proto : Nat → Bool
  flags : Nat
  /-- `s->init_data->smlists[DETECT_SM_LIST_PMATCH]`. -/
  pmatch : List SigMatch
  /-- `s->init_data->smlists[DETECT_SM_LIST_MATCH]`. -/
  mlist : List SigMatch

/-- The loop over the payload list: is there a `DETECT_CONTENT` with a
DEPTH or OFFSET flag (the source breaks at the first one). -/
def hasDepthOffsetContent (l : List SigMatch) : Bool :=
  l.any fun sm =>
    sm.type = DETECT_CONTENT &&
      sm.content_flags &&& (DETECT_CONTENT_DEPTH ||| DETECT_CONTENT_OFFSET) ≠ 0

/-- The loop over the classical MATCH list: is a `stream_size` keyword
present. -/
def hasStreamSize (l : List SigMatch) : Bool :=
  l.any fun sm => sm.type = DETECT_STREAM_SIZE

/-- Embeds `SigConsolidateTcpBuffer` (detect-parse.c:2718-2748). -/
def SigConsolidateTcpBuffer (s : Signature) : Signature :=
  if s.proto IPPROTO_TCP then
    if s.pmatch ≠ [] then
      if s.flags &&& (SIG_FLAG_REQUIRE_PACKET ||| SIG_FLAG_REQUIRE_STREAM) = 0 then
        let s1 := { s with flags := s.flags ||| SIG_FLAG_REQUIRE_STREAM }
        let s2 :=
          if hasDepthOffsetContent s1.pmatch then
            { s1 with flags := s1.flags ||| SIG_FLAG_REQUIRE_PACKET }
          else s1
        if hasStreamSize s2.mlist then
          { s2 with flags := s2.flags ||| SIG_FLAG_REQUIRE_PACKET }
        else s2
      else s
    else s
  else s

/-- A flag bit is set in the word. -/
def hasFlag (x f : Nat) : Prop := x &&& f ≠ 0

theorem hasFlag_or_self (x k : Nat) : hasFlag (x ||| 2 ^ k) (2 ^ k) := by
  unfold hasFlag
  intro h0
  have hbit : ((x ||| 2 ^ k) &&& 2 ^ k).testBit k =
      ((x ||| 2 ^ k).testBit k && (2 ^ k).testBit k) := Nat.testBit_and _ _ k
  rw [h0] at hbit
  simp [Nat.testBit_or, Nat.testBit_two_pow_self] at hbit

theorem hasFlag_or_left (x y f : Nat) (h : hasFlag x f) : hasFlag (x ||| y) f := by
  unfold hasFlag at h ⊢
  intro h0
  apply h
  have hz : ∀ i, (x &&& f).testBit i = false := by
    intro i
    have hb : ((x ||| y) &&& f).testBit i = false := by rw [h0]; simp
    rw [Nat.testBit_and] at hb ⊢
    rw [Nat.testBit_or] at hb
    rcases Bool.and_eq_false_iff.1 hb with h1 | h1
    · simp [(Bool.or_eq_false_iff.1 h1).1]
    · simp [h1]
  exact Nat.eq_of_testBit_eq fun i => by rw [hz i]; simp

end TcpConsolidate

/-- C6: during validation of a signature whose protocol set includes TCP,
with a non-empty payload (PMATCH) list and neither REQUIRE_PACKET nor
REQUIRE_STREAM set yet, `SigConsolidateTcpBuffer` sets REQUIRE_STREAM; if
any DETECT_CONTENT in the payload list carries a DEPTH or OFFSET flag it
also sets REQUIRE_PACKET, and if a stream_size keyword is in the classical
MATCH list it also sets REQUIRE_PACKET. -/
theorem claim_C6 (s : TcpConsolidate.Signature)
    (htcp : s.proto TcpConsolidate.IPPROTO_TCP = true)
    (hpm : s.pmatch ≠ [])
    (hnone : s.flags &&& (TcpConsolidate.SIG_FLAG_REQUIRE_PACKET |||
        TcpConsolidate.SIG_FLAG_REQUIRE_STREAM) = 0) :
    TcpConsolidate.hasFlag (TcpConsolidate.SigConsolidateTcpBuffer s).flags
        TcpConsolidate.SIG_FLAG_REQUIRE_STREAM ∧
    (TcpConsolidate.hasDepthOffsetContent s.pmatch = true →
      TcpConsolidate.hasFlag (TcpConsolidate.SigConsolidateTcpBuffer s).flags
        TcpConsolidate.SIG_FLAG_REQUIRE_PACKET) ∧
    (TcpConsolidate.hasStreamSize s.mlist = true →
      TcpConsolidate.hasFlag (TcpConsolidate.SigConsolidateTcpBuffer s).flags
        TcpConsolidate.SIG_FLAG_REQUIRE_PACKET) := by
  by_cases hdo : TcpConsolidate.hasDepthOffsetContent s.pmatch = true
  · by_cases hss : TcpConsolidate.hasStreamSize s.mlist = true
    · have hflags : (TcpConsolidate.SigConsolidateTcpBuffer s).flags =
          ((s.flags ||| TcpConsolidate.SIG_FLAG_REQUIRE_STREAM) |||
              TcpConsolidate.SIG_FLAG_REQUIRE_PACKET) |||
            TcpConsolidate.SIG_FLAG_REQUIRE_PACKET := by
        simp [TcpConsolidate.SigConsolidateTcpBuffer, htcp, hpm, hnone, hdo, hss]
      rw [hflags]
      exact ⟨TcpConsolidate.hasFlag_or_left _ _ _ (TcpConsolidate.hasFlag_or_left _ _ _
                (TcpConsolidate.hasFlag_or_self _ 9)),
             fun _ => TcpConsolidate.hasFlag_or_self _ 8,
             fun _ => TcpConsolidate.hasFlag_or_self _ 8⟩
    · have hflags : (TcpConsolidate.SigConsolidateTcpBuffer s).flags =
          (s.flags ||| TcpConsolidate.SIG_FLAG_REQUIRE_STREAM) |||
            TcpConsolidate.SIG_FLAG_REQUIRE_PACKET := by
        simp [TcpConsolidate.SigConsolidateTcpBuffer, htcp, hpm, hnone, hdo, hss]
      rw [hflags]
      exact ⟨TcpConsolidate.hasFlag_or_left _ _ _ (TcpConsolidate.hasFlag_or_self _ 9),
             fun _ => TcpConsolidate.hasFlag_or_self _ 8,
             fun h => absurd h hss⟩
  · by_cases hss : TcpConsolidate.hasStreamSize s.mlist = true
    · have hflags : (TcpConsolidate.SigConsolidateTcpBuffer s).flags =
          (s.flags ||| TcpConsolidate.SIG_FLAG_REQUIRE_STREAM) |||
            TcpConsolidate.SIG_FLAG_REQUIRE_PACKET := by
        simp [TcpConsolidate.SigConsolidateTcpBuffer, htcp, hpm, hnone, hdo, hss]
      rw [hflags]
      exact ⟨TcpConsolidate.hasFlag_or_left _ _ _ (TcpConsolidate.hasFlag_or_self _ 9),
             fun h => absurd h hdo,
             fun _ => TcpConsolidate.hasFlag_or_self _ 8⟩
    · have hflags : (TcpConsolidate.SigConsolidateTcpBuffer s).flags =
          s.flags ||| TcpConsolidate.SIG_FLAG_REQUIRE_STREAM := by
        simp [TcpConsolidate.SigConsolidateTcpBuffer, htcp, hpm, hnone, hdo, hss]
      rw [hflags]
      exact ⟨TcpConsolidate.hasFlag_or_self _ 9,
             fun h => absurd h hdo,
             fun h => absurd h hss⟩

/-- A concrete tcp signature with one content carrying DEPTH in the payload
list. -/
def c6sig : TcpConsolidate.Signature :=
  { proto := fun n => n == 6, flags := 0,
    pmatch := [{ type := TcpConsolidate.DETECT_CONTENT,
                 content_flags := TcpConsolidate.DETECT_CONTENT_DEPTH }],
    mlist := [] }

/-- Witness for C6: a tcp rule with content plus depth ends with both
REQUIRE_STREAM and REQUIRE_PACKET. -/
theorem claim_C6_witness :
    TcpConsolidate.hasFlag (TcpConsolidate.SigConsolidateTcpBuffer c6sig).flags
        TcpConsolidate.SIG_FLAG_REQUIRE_STREAM ∧
    TcpConsolidate.hasFlag (TcpConsolidate.SigConsolidateTcpBuffer c6sig).flags
        TcpConsolidate.SIG_FLAG_REQUIRE_PACKET :=
  ⟨(claim_C6 c6sig rfl (by decide) rfl).1,
   (claim_C6 c6sig rfl (by decide) rfl).2.1 (by decide)⟩

/-! ## Bidirectional rule expansion and signum accounting (`SigInitDo`,
`SigInitHelper`, `SigHasSameSourceAndDestination`,
detect-parse.c:2863-3010 and 3018-3084)

`SigInitHelper` parses the rule text, with `addrs_direction` deciding
whether `parser->src`/`parser->sp` fill the signature's source (normal) or
destination (switched) side — `SIG_DIREC_SRC ^ addrs_direction` in
`SigParseBasics`.  The identity fields (`sid`/`gid`/`rev`) come from option
keywords and do not depend on the direction.  The external keyword setups
and validators make the helper fail at some stage; what matters for the
claims is whether a failure happens before or after the
`de_ctx->signum++` at detect-parse.c:2924-2925, so the per-direction
behaviour of the rule text is modelled by a `Stage`.  The parsed address
and port lists are opaque values produced by the external address/port
parsers (`DetectParseAddress`, `DetectPortParse`). -/

namespace Bidir

/-- How far `SigInitHelper` gets for one direction of the rule text. -/
inductive Stage where
  /-- scan pass, missing sid, or build pass failed (before `signum++`). -/
  | failBeforeNum
  /-- buffer/validation/consolidation failed (after `signum++`). -/
  | failAfterNum
  | success
deriving DecidableEq

/-- The direction-independent outcome of parsing one rule text, plus the
per-direction stage reached by `SigInitHelper`. -/
structure RuleParse where
  sid : Nat
  gid : Nat
  rev : Nat
  /-- parsed `parser->sp` / `parser->dp` port lists. -/
  sp : List Nat
  dp : List Nat
  /-- parsed ipv4 / ipv6 address lists of `parser->src` / `parser->dst`. -/
  src4 : List Nat
  dst4 : List Nat
  src6 : List Nat
  dst6 : List Nat
  /-- the literal `any` was used for sport / dport / src / dst. -/
  sp_any : Bool
  dp_any : Bool
  src_any : Bool
  dst_any : Bool
  /-- the direction token was `<>` (`SIG_FLAG_INIT_BIDIREC`). -/
  bidirec : Bool
  stageNormal : Stage
  stageSwitched : Stage
deriving DecidableEq

structure Signature where
  sid : Nat
  gid : Nat
  rev : Nat
  sp : List Nat
  dp : List Nat
  src4 : List Nat
  dst4 : List Nat
  src6 : List Nat
  dst6 : List Nat
  sp_any : Bool
  dp_any : Bool
  src_any : Bool
  dst_any : Bool
  bidirec : Bool
deriving DecidableEq

/-- The signature built by a successful `SigInitHelper` run: with
`addrs_direction = SIG_DIREC_SWITCHED` the `parser->src`/`parser->sp`
strings fill the destination side and vice versa
(`SIG_DIREC_SRC ^ addrs_direction`, detect-parse.c:1813-1826). -/
def mkSig (r : RuleParse) (switched : Bool) : Signature :=
  { sid := r.sid, gid := r.gid, rev := r.rev,
    sp := if switched then r.dp else r.sp,
    dp := if switched then r.sp else r.dp,
    src4 := if switched then r.dst4 else r.src4,
    dst4 := if switched then r.src4 else r.dst4,
    src6 := if switched then r.dst6 else r.src6,
    dst6 := if switched then r.src6 else r.dst6,
    sp_any := if switched then r.dp_any else r.sp_any,
    dp_any := if switched then r.sp_any else r.dp_any,
    src_any := if switched then r.dst_any else r.src_any,
    dst_any := if switched then r.src_any else r.dst_any,
    bidirec := r.bidirec }

/-- Embeds `SigInitHelper` (detect-parse.c:2863-3010), threading the
engine's `signum` counter: the counter is incremented exactly when the run
reaches detect-parse.c:2925, i.e. after the full parse succeeded. -/
def SigInitHelper (r : RuleParse) (switched : Bool) (signum : Nat) :
    Option Signature × Nat :=
  match (if switched then r.stageSwitched else r.stageNormal) with
  | Stage.failBeforeNum => (none, signum)
  | Stage.failAfterNum => (none, signum + 1)
  | Stage.success => (some (mkSig r switched), signum + 1)

/-- Modelled from the spec: `DetectPortListsAreEqual` (detect-engine-port.c
is not part of this file's source) decides whether two parsed port lists
are equal; §4.9 "ports equal". -/
def DetectPortListsAreEqual (a b : List Nat) : Bool := a == b

/-- Modelled from the spec: `DetectAddressListsAreEqual` (detect-engine-
address.c is not part of this file's source) decides whether two parsed
address lists are equal; §4.9 "IPv4 and IPv6 address lists equal". -/
def DetectAddressListsAreEqual (a b : List Nat) : Bool := a == b

/-- Embeds `SigHasSameSourceAndDestination` (detect-parse.c:3018-3043). -/
def SigHasSameSourceAndDestination (s : Signature) : Bool :=
  (if ¬(s.sp_any ∧ s.dp_any) then DetectPortListsAreEqual s.sp s.dp else true) &&
  (if ¬(s.src_any ∧ s.dst_any) then
      DetectAddressListsAreEqual s.src4 s.dst4 &&
        DetectAddressListsAreEqual s.src6 s.dst6
    else true)

/-- Embeds `SigInitDo` (detect-parse.c:3045-3084).  Returns the resulting
chain (first signature and, for an expanded bidirectional rule, its `.next`
sibling) together with the engine's `signum` after the call; on every error
path the counter is restored to `oldsignum`. -/
def SigInitDo (r : RuleParse) (signum : Nat) :
    Option (Signature × Option Signature) × Nat :=
  let oldsignum := signum
  match SigInitHelper r false signum with
  | (none, _) => (none, oldsignum)
  | (some sig, n1) =>
    if sig.bidirec then
      if SigHasSameSourceAndDestination sig then
        (some ({ sig with bidirec := false }, none), n1)
      else
        match SigInitHelper r true n1 with
        | (none, _) => (none, oldsignum)
        | (some sig2, n2) => (some (sig, some sig2), n2)
    else
      (some (sig, none), n1)

end Bidir

/-- C2: for a `<>` rule, `SigInitDo` first builds the natural direction;
if source and destination are provably equal the bidirectional flag is
cleared and exactly one signature results; otherwise a second signature is
built from the same text with the direction switched and chained as `.next`
of the first, sharing sid/gid/rev with swapped addresses and ports.  The
"provably equal" test is: ports equal unless both are ANY, and the IPv4 and
IPv6 address lists equal unless both sides are ANY. -/
theorem claim_C2 (r : Bidir.RuleParse) (signum : Nat)
    (hok : r.stageNormal = Bidir.Stage.success) (hbid : r.bidirec = true) :
    (Bidir.SigHasSameSourceAndDestination (Bidir.mkSig r false) = true →
      (Bidir.SigInitDo r signum).1 =
        some ({ Bidir.mkSig r false with bidirec := false }, none)) ∧
    (Bidir.SigHasSameSourceAndDestination (Bidir.mkSig r false) = false →
      r.stageSwitched = Bidir.Stage.success →
      (Bidir.SigInitDo r signum).1 =
        some (Bidir.mkSig r false, some (Bidir.mkSig r true)) ∧
      (Bidir.mkSig r true).sid = (Bidir.mkSig r false).sid ∧
      (Bidir.mkSig r true).gid = (Bidir.mkSig r false).gid ∧
      (Bidir.mkSig r true).rev = (Bidir.mkSig r false).rev ∧
      (Bidir.mkSig r true).sp = (Bidir.mkSig r false).dp ∧
      (Bidir.mkSig r true).dp = (Bidir.mkSig r false).sp ∧
      (Bidir.mkSig r true).src4 = (Bidir.mkSig r false).dst4 ∧
      (Bidir.mkSig r true).dst4 = (Bidir.mkSig r false).src4 ∧
      (Bidir.mkSig r true).src6 = (Bidir.mkSig r false).dst6 ∧
      (Bidir.mkSig r true).dst6 = (Bidir.mkSig r false).src6) ∧
    (Bidir.SigHasSameSourceAndDestination (Bidir.mkSig r false) =
      (((r.sp_any && r.dp_any) || Bidir.DetectPortListsAreEqual r.sp r.dp) &&
        ((r.src_any && r.dst_any) ||
          (Bidir.DetectAddressListsAreEqual r.src4 r.dst4 &&
            Bidir.DetectAddressListsAreEqual r.src6 r.dst6)))) := by
  have hb : ∀ b, (Bidir.mkSig r b).bidirec = r.bidirec := fun _ => rfl
  refine ⟨?_, ?_, ?_⟩
  · intro hsame
    simp [Bidir.SigInitDo, Bidir.SigInitHelper, hok, hb, hbid, hsame]
  · intro hdiff hsw
    refine ⟨?_, rfl, rfl, rfl, rfl, rfl, rfl, rfl, rfl, rfl⟩
    simp [Bidir.SigInitDo, Bidir.SigInitHelper, hok, hsw, hb, hbid, hdiff]
  · unfold Bidir.SigHasSameSourceAndDestination Bidir.mkSig
    cases hsp : r.sp_any <;> cases hdp : r.dp_any <;>
      cases hsrc : r.src_any <;> cases hdst : r.dst_any <;>
      simp

/-- A concrete `<>` rule with distinct endpoints, succeeding in both
directions. -/
def c2rule : Bidir.RuleParse :=
  { sid := 2, gid := 1, rev := 0,
    sp := [0], dp := [0], src4 := [1], dst4 := [2], src6 := [], dst6 := [],
    sp_any := true, dp_any := true, src_any := false, dst_any := false,
    bidirec := true,
    stageNormal := Bidir.Stage.success, stageSwitched := Bidir.Stage.success }

/-- Witness for C2: the concrete `<>` rule expands into two chained
signatures sharing sid/gid/rev with swapped addresses. -/
theorem claim_C2_witness :
    (Bidir.SigInitDo c2rule 0).1 =
      some (Bidir.mkSig c2rule false, some (Bidir.mkSig c2rule true)) ∧
    (Bidir.mkSig c2rule true).sid = (Bidir.mkSig c2rule false).sid :=
  ⟨((claim_C2 c2rule 0 rfl rfl).2.1 (by decide) rfl).1,
   ((claim_C2 c2rule 0 rfl rfl).2.1 (by decide) rfl).2.1⟩

/-- C8: whenever `SigInitDo` fails — at any stage, in either direction —
it returns null and the engine's `signum` counter is restored to the value
it had before the call. -/
theorem claim_C8 (r : Bidir.RuleParse) (signum : Nat)
    (h : (Bidir.SigInitDo r signum).1 = none) :
    (Bidir.SigInitDo r signum).2 = signum := by
  rcases hn : r.stageNormal with _ | _ | _
  case failBeforeNum => simp [Bidir.SigInitDo, Bidir.SigInitHelper, hn]
  case failAfterNum => simp [Bidir.SigInitDo, Bidir.SigInitHelper, hn]
  case success =>
    rcases hs : r.stageSwitched with _ | _ | _ <;>
      by_cases hb2 : (Bidir.mkSig r false).bidirec = true <;>
      by_cases hsame :
        Bidir.SigHasSameSourceAndDestination (Bidir.mkSig r false) = true <;>
      simp_all [Bidir.SigInitDo, Bidir.SigInitHelper, hn, hs, hb2, hsame]

/-- A `<>` rule whose switched build fails after the counter bump. -/
def c8rule : Bidir.RuleParse :=
  { c2rule with stageSwitched := Bidir.Stage.failAfterNum }

/-- Witness for C8: a failing rule leaves `signum` at its pre-call value. -/
theorem claim_C8_witness :
    (Bidir.SigInitDo c8rule 5).1 = none ∧ (Bidir.SigInitDo c8rule 5).2 = 5 :=
  ⟨by decide, claim_C8 c8rule 5 (by decide)⟩

/-! ## Duplicate resolution on append (`DetectEngineSignatureIsDuplicate`
and `DetectEngineAppendSig`, detect-parse.c:3215-3343 and 3437-3487)

The engine's `sig_list` is modelled as a Lean list, new signatures
prepended; a bidirectional signature occupies two consecutive entries (the
head and its `.next` clone).  The duplicate hash table keyed on
`(sid, gid)` (`DetectParseDupSigCompareFunc`) holds exactly one wrapper per
key, pointing at the head signature of that key's group — which is the
first list entry with that key — so the lookup is modelled as `find?` over
the list.  The `tag` field stands for the opaque rest of a parsed
signature, distinguishing the two parses of a duplicate pair. -/

namespace Dedup

structure Signature where
  /-- `s->id` (the sid). -/
  id : Nat
  gid : Nat
  rev : Nat
  /-- `SIG_FLAG_INIT_BIDIREC`. -/
  bidirec : Bool
  /-- stands for all remaining signature contents. -/
  tag : Nat
deriving DecidableEq

/-- `DetectParseDupSigCompareFunc`: sid and gid match required. -/
def sameKey (a b : Signature) : Bool := a.id == b.id && a.gid == b.gid

/-- The unlink of the stored duplicate from the engine list performed at
detect-parse.c:3270-3318: remove the stored signature and, when it is
bidirectional, also its `.next` clone sitting immediately after it (the
four `s_prev`/`next` sub-cases all amount to this splice). -/
def unlinkDup (dup : Signature) : List Signature → List Signature
  | [] => []
  | x :: rest =>
      if x = dup then (if dup.bidirec then rest.tail else rest)
      else x :: unlinkDup dup rest

/-- Embeds `DetectEngineSignatureIsDuplicate` (detect-parse.c:3215-3343):
0 = not a duplicate (inserted into the hash), 1 = duplicate of lower or
equal revision (caller discards the incoming one), 2 = duplicate of higher
revision (the stored signature and its bidirectional sibling were unlinked
and freed).  Second component: the updated engine list. -/
def DetectEngineSignatureIsDuplicate (sig_list : List Signature) (sig : Signature) :
    Nat × List Signature :=
  match sig_list.find? (fun x => sameKey x sig) with
  | none => (0, sig_list)
  | some dup =>
      if sig.rev ≤ dup.rev then (1, sig_list)
      else (2, unlinkDup dup sig_list)

/-- Embeds `DetectEngineAppendSig` (detect-parse.c:3437-3487) for an
already-built signature chain (`sig` and, when bidirectional, its `.next`
clone): duplicate check, then prepend to the engine list.  First
component: whether the append succeeded (the C function returns the head
pointer or NULL); second: the engine list afterwards. -/
def DetectEngineAppendSig (sig_list : List Signature) (sig : Signature)
    (clone : Option Signature) : Bool × List Signature :=
  let r := DetectEngineSignatureIsDuplicate sig_list sig
  if r.1 = 1 then (false, r.2)
  else
    if sig.bidirec then
      match clone with
      | some c => (true, sig :: c :: r.2)
      | none => (false, r.2)
    else (true, sig :: r.2)

end Dedup

/-- C3: appending two rules with equal (sid, gid) into an engine with no
prior signature of that key leaves exactly one survivor — the one with the
greater rev, together with its bidirectional sibling if any — independent
of the order of the two appends: the lower-rev incoming one is rejected as
a duplicate with the stored one remaining, and a higher-rev incoming one
replaces the stored pair, which is unlinked and freed. -/
theorem claim_C3 (s1 s2 : Dedup.Signature) (c1 c2 : Option Dedup.Signature)
    (hid : s1.id = s2.id) (hgid : s1.gid = s2.gid)
    (hb1 : s1.bidirec = c1.isSome) (hb2 : s2.bidirec = c2.isSome)
    (hrev : s1.rev < s2.rev) :
    (Dedup.DetectEngineAppendSig (Dedup.DetectEngineAppendSig [] s1 c1).2 s2 c2).2 =
        s2 :: c2.toList ∧
    (Dedup.DetectEngineAppendSig (Dedup.DetectEngineAppendSig [] s2 c2).2 s1 c1).1 =
        false ∧
    (Dedup.DetectEngineAppendSig (Dedup.DetectEngineAppendSig [] s2 c2).2 s1 c1).2 =
        s2 :: c2.toList := by
  have h21 : Dedup.sameKey s2 s1 = true := by
    simp [Dedup.sameKey, hid, hgid]
  have h12 : Dedup.sameKey s1 s2 = true := by
    simp [Dedup.sameKey, hid, hgid]
  have hnle : ¬s2.rev ≤ s1.rev := Nat.not_le.2 hrev
  have hle : s1.rev ≤ s2.rev := Nat.le_of_lt hrev
  rcases c1 with _ | c1 <;> rcases c2 with _ | c2 <;>
    simp_all [Dedup.DetectEngineAppendSig, Dedup.DetectEngineSignatureIsDuplicate,
      Dedup.unlinkDup, List.find?, Nat.not_le.2 hrev]

/-- Witness for C3: two concrete duplicate rules, the first bidirectional
with its clone, the second unidirectional with higher rev. -/
theorem claim_C3_witness :
    (Dedup.DetectEngineAppendSig
        (Dedup.DetectEngineAppendSig []
          { id := 1, gid := 1, rev := 1, bidirec := true, tag := 0 }
          (some { id := 1, gid := 1, rev := 1, bidirec := true, tag := 1 })).2
        { id := 1, gid := 1, rev := 2, bidirec := false, tag := 2 } none).2 =
      [{ id := 1, gid := 1, rev := 2, bidirec := false, tag := 2 }] :=
  (claim_C3 { id := 1, gid := 1, rev := 1, bidirec := true, tag := 0 }
      { id := 1, gid := 1, rev := 2, bidirec := false, tag := 2 }
      (some { id := 1, gid := 1, rev := 1, bidirec := true, tag := 1 }) none
      rfl rfl rfl rfl (by decide)).1

/-! ## SigMatch lists, sticky buffers and the idx order
(`SCSigMatchAppendSMToList`, `SignatureInitDataBufferCheckExpand`,
`SigMatchTransferSigMatchAcrossLists`, detect-parse.c:388-485, 1917-1935
and 733-761)

The C doubly-linked (head, tail) pairs are modelled as Lean lists in
head-to-tail order; a node's identity is its value (under the established
invariant, idx values are unique, so this identifies nodes as pointers do).
`curbuf` is the index of the open buffer inside the buffer vector, and
`buffer_index` is the length of the modelled vector (only used entries are
modelled; the realloc in `SignatureInitDataBufferCheckExpand` zeroes the
spare entries, so a freshly allocated buffer starts with all fields
cleared).  `DETECT_SM_LIST_MAX` is an enum count from detect.h; its exact
value is immaterial, any fixed positive value reproduces the branch
structure. -/

namespace SigMatchList

def DETECT_SM_LIST_MAX : Nat := 8

structure SigMatch where
  type : Nat
  idx : Nat
deriving DecidableEq

instance : Inhabited SigMatch := ⟨{ type := 0, idx := 0 }⟩

structure SignatureInitDataBuffer where
  id : Nat
  /-- the (head, tail) list of match instances, head first. -/
  sms : List SigMatch
  sm_init : Bool
  multi_capable : Bool
  only_ts : Bool
  only_tc : Bool
deriving DecidableEq

instance : Inhabited SignatureInitDataBuffer :=
  ⟨{ id := 0, sms := [], sm_init := false, multi_capable := false,
     only_ts := false, only_tc := false }⟩

structure SignatureInitData where
  /-- the classical slots `smlists[0..DETECT_SM_LIST_MAX)`. -/
  smlists : List (List SigMatch)
  /-- the used entries of the sticky-buffer vector (`buffer_index` many). -/
  buffers : List SignatureInitDataBuffer
  /-- index of `curbuf` within `buffers`. -/
  curbuf : Option Nat
  sm_cnt : Nat
  buffers_size : Nat
  /-- `SIG_FLAG_INIT_FORCE_TOCLIENT` / `..TOSERVER` in `init_flags`. -/
  force_toclient : Bool
  force_toserver : Bool
deriving DecidableEq

/-- Embeds `SignatureInitDataBufferCheckExpand` (detect-parse.c:1917-1935):
fails once the vector would exceed 64 entries, grows it by 8 zeroed entries
when full. -/
def SignatureInitDataBufferCheckExpand (s : SignatureInitData) :
    Option SignatureInitData :=
  if s.buffers_size ≥ 64 then none
  else if s.buffers.length + 1 = s.buffers_size then
    some { s with buffers_size := s.buffers_size + 8 }
  else some s

/-- The final lines of the sticky-buffer branch: append the new node at
`curbuf`'s tail and take the next idx (detect-parse.c:466-475).  The
`BUG_ON(curbuf == NULL)` case is `none`. -/
def appendToCurbuf (s : SignatureInitData) (nw : SigMatch) :
    Option (SignatureInitData × SigMatch) :=
  match s.curbuf with
  | none => none
  | some cb =>
      let b := s.buffers.getD cb default
      some ({ s with
                buffers := s.buffers.set cb { b with sms := b.sms ++ [nw] },
                sm_cnt := s.sm_cnt + 1 }, nw)

/-- The buffer-reuse scan (detect-parse.c:432-441): when `curbuf` is open
for a different id, switch to the first existing non-multi-capable buffer
of the target id, if any. -/
def bufferReuse (s : SignatureInitData) (list : Nat) : SignatureInitData :=
  match s.curbuf with
  | some cb =>
      if (s.buffers.getD cb default).id ≠ list then
        match s.buffers.findIdx? (fun b => b.id == list && !b.multi_capable) with
        | some x => { s with curbuf := some x }
        | none => s
      else s
  | none => s

/-- The allocation condition (detect-parse.c:443-444): no buffer open, or
the open one has a different id. -/
def needNewBuffer (s : SignatureInitData) (list : Nat) : Bool :=
  match s.curbuf with
  | none => true
  | some cb => (s.buffers.getD cb default).id != list

/-- Allocation of a fresh buffer entry (detect-parse.c:445-465): grow the
vector if needed (failing at the 64-entry cap), then open a zeroed entry
with the target id, `sm_init` set and the force-direction flags
propagated. -/
def allocBuffer (s : SignatureInitData) (list : Nat) : Option SignatureInitData :=
  match SignatureInitDataBufferCheckExpand s with
  | none => none
  | some s2 =>
      let nb : SignatureInitDataBuffer :=
        { id := list, sms := [], sm_init := true, multi_capable := false,
          only_tc := s2.force_toclient, only_ts := s2.force_toserver }
      some { s2 with buffers := s2.buffers ++ [nb],
                     curbuf := some s2.buffers.length }

/-- Embeds `SCSigMatchAppendSMToList` (detect-parse.c:388-485).  The new
node gets `idx = sm_cnt` and `sm_cnt` is incremented.  For a classical list
(`list < DETECT_SM_LIST_MAX`) the node is appended at the list's tail.
Otherwise the sticky-buffer path runs: reuse scan, allocation when the
current buffer still does not match, then append to `curbuf`. -/
def SCSigMatchAppendSMToList (s : SignatureInitData) (type : Nat) (list : Nat) :
    Option (SignatureInitData × SigMatch) :=
  if list < DETECT_SM_LIST_MAX then
    some ({ s with
              smlists := s.smlists.set list
                (s.smlists.getD list [] ++ [{ type := type, idx := s.sm_cnt }]),
              sm_cnt := s.sm_cnt + 1 }, { type := type, idx := s.sm_cnt })
  else
    if needNewBuffer (bufferReuse s list) list then
      match allocBuffer (bufferReuse s list) list with
      | none => none
      | some s3 => appendToCurbuf s3 { type := type, idx := s.sm_cnt }
    else
      appendToCurbuf (bufferReuse s list) { type := type, idx := s.sm_cnt }

/-- Embeds `SigMatchTransferSigMatchAcrossLists` (detect-parse.c:733-761):
splice `sm` out of the source (head, tail) pair and append it at the tail
of the destination pair. -/
def SigMatchTransferSigMatchAcrossLists (sm : SigMatch)
    (src dst : List SigMatch) : List SigMatch × List SigMatch :=
  (src.erase sm, dst ++ [sm])

/-- All match-instance lists of the signature: the classical slots and
every sticky buffer. -/
def listsOf (s : SignatureInitData) : List (List SigMatch) :=
  s.smlists ++ s.buffers.map (fun b => b.sms)

/-- Every attached idx, grouped by list. -/
def allIdxs (s : SignatureInitData) : List Nat :=
  (listsOf s).flatten.map SigMatch.idx

/-- `curbuf`, when set, points into the buffer vector. -/
def curbufOk (s : SignatureInitData) : Bool :=
  match s.curbuf with
  | none => true
  | some cb => cb < s.buffers.length

/-- The structural invariant of the build state: the classical slot array
has its fixed size, `curbuf` is in range, every attached idx is below
`sm_cnt`, the idx values are globally distinct (so each instance belongs to
exactly one list), and within each list the idx values strictly increase
from head to tail (attachment order). -/
def Inv (s : SignatureInitData) : Prop :=
  s.smlists.length = DETECT_SM_LIST_MAX ∧
  curbufOk s = true ∧
  (∀ i ∈ allIdxs s, i < s.sm_cnt) ∧
  (allIdxs s).Nodup ∧
  ∀ l ∈ listsOf s, l.Pairwise (fun a b => a.idx < b.idx)

instance (s : SignatureInitData) : Decidable (Inv s) := by
  unfold Inv; infer_instance

end SigMatchList

namespace SigMatchList

theorem getD_mem {α : Type} (l : List α) (k : Nat) (d : α) (hk : k < l.length) :
    l.getD k d ∈ l := by
  induction l generalizing k with
  | nil => simp at hk
  | cons a t ih =>
      cases k with
      | zero => simp
      | succ k =>
          simp only [List.getD_cons_succ]
          exact List.mem_cons_of_mem _ (ih k (by simpa using hk))

theorem getD_map_sms (bs : List SignatureInitDataBuffer) (cb : Nat)
    (hcb : cb < bs.length) :
    (bs.map (fun b => b.sms)).getD cb [] = (bs.getD cb default).sms := by
  induction bs generalizing cb with
  | nil => simp at hcb
  | cons b t ih =>
      cases cb with
      | zero => simp
      | succ cb =>
          simp only [List.map_cons, List.getD_cons_succ]
          exact ih cb (by simpa using hcb)

theorem findIdxQ_lt_length {α : Type} (p : α → Bool) (l : List α) (i : Nat)
    (h : l.findIdx? p = some i) : i < l.length := by
  induction l generalizing i with
  | nil => simp [List.findIdx?] at h
  | cons x xs ih =>
      rw [List.findIdx?_cons] at h
      by_cases hp : p x = true
      · simp [hp] at h
        simp [← h]
      · simp [hp] at h
        obtain ⟨j, hj, rfl⟩ := h
        have := ih j hj
        simp
        omega

theorem flatten_set_append {α : Type} (ls : List (List α)) (k : Nat) (x : α)
    (hk : k < ls.length) :
    List.Perm (ls.set k (ls.getD k [] ++ [x])).flatten (x :: ls.flatten) := by
  induction ls generalizing k with
  | nil => simp at hk
  | cons l t ih =>
      cases k with
      | zero =>
          simp only [List.set_cons_zero, List.getD_cons_zero, List.flatten_cons,
            List.append_assoc, List.singleton_append]
          exact List.perm_middle
      | succ k =>
          simp only [List.set_cons_succ, List.getD_cons_succ, List.flatten_cons]
          have hk2 : k < t.length := by simpa using hk
          have h1 := (ih k hk2).append_left l
          exact h1.trans List.perm_middle

end SigMatchList

namespace SigMatchList

theorem pairwise_set_append (ls : List (List SigMatch)) (k : Nat) (x : SigMatch)
    (hk : k < ls.length)
    (hall : ∀ l ∈ ls, l.Pairwise (fun a b => a.idx < b.idx))
    (hfresh : ∀ a ∈ ls.getD k [], a.idx < x.idx) :
    ∀ l ∈ ls.set k (ls.getD k [] ++ [x]), l.Pairwise (fun a b => a.idx < b.idx) := by
  intro l hl
  rcases List.mem_or_eq_of_mem_set hl with hmem | rfl
  · exact hall l hmem
  · rw [List.pairwise_append]
    exact ⟨hall _ (getD_mem ls k [] hk), List.pairwise_singleton _ _,
      fun a ha b hb => by rw [List.mem_singleton.1 hb]; exact hfresh a ha⟩

theorem idx_lt_of_mem (s : SignatureInitData)
    (hbound : ∀ i ∈ allIdxs s, i < s.sm_cnt)
    {l : List SigMatch} (hl : l ∈ listsOf s) {a : SigMatch} (ha : a ∈ l) :
    a.idx < s.sm_cnt :=
  hbound a.idx (List.mem_map_of_mem _ (List.mem_flatten.2 ⟨l, hl, ha⟩))

theorem appendToCurbuf_spec (s3 : SignatureInitData) (nw : SigMatch)
    (hInv : Inv s3) (hidx : nw.idx = s3.sm_cnt)
    (s4 : SignatureInitData) (nw2 : SigMatch)
    (happ : appendToCurbuf s3 nw = some (s4, nw2)) :
    nw2 = nw ∧ Inv s4 ∧ s4.sm_cnt = s3.sm_cnt + 1 ∧
      List.Perm (allIdxs s4) (nw.idx :: allIdxs s3) := by
  obtain ⟨hlen, hcur, hbound, hnodup, hpw⟩ := hInv
  unfold appendToCurbuf at happ
  cases hc : s3.curbuf with
  | none => rw [hc] at happ; simp at happ
  | some cb =>
      rw [hc] at happ
      simp only [Option.some.injEq, Prod.mk.injEq] at happ
      obtain ⟨hs4, hnw2⟩ := happ
      subst hnw2
      have hcb : cb < s3.buffers.length := by
        unfold curbufOk at hcur
        rw [hc] at hcur
        exact of_decide_eq_true hcur
      have hmap : cb < (s3.buffers.map (fun b => b.sms)).length := by simpa using hcb
      have hkey : (s3.buffers.set cb
            { s3.buffers.getD cb default with
                sms := (s3.buffers.getD cb default).sms ++ [nw] }).map (fun b => b.sms) =
          (s3.buffers.map (fun b => b.sms)).set cb
            ((s3.buffers.map (fun b => b.sms)).getD cb [] ++ [nw]) := by
        rw [List.map_set, getD_map_sms _ _ hcb]
      have hlists : listsOf s4 =
          s3.smlists ++ (s3.buffers.map (fun b => b.sms)).set cb
            ((s3.buffers.map (fun b => b.sms)).getD cb [] ++ [nw]) := by
        rw [← hs4]
        unfold listsOf
        simp only []
        rw [hkey]
      have hflat : List.Perm (listsOf s4).flatten (nw :: (listsOf s3).flatten) := by
        rw [hlists]
        unfold listsOf
        rw [List.flatten_append, List.flatten_append]
        exact ((flatten_set_append _ cb nw hmap).append_left _).trans List.perm_middle
      have hpermIdx : List.Perm (allIdxs s4) (nw.idx :: allIdxs s3) := by
        unfold allIdxs
        simpa using hflat.map SigMatch.idx
      have hcnt : s4.sm_cnt = s3.sm_cnt + 1 := by rw [← hs4]
      refine ⟨rfl, ⟨?_, ?_, ?_, ?_, ?_⟩, hcnt, hpermIdx⟩
      · rw [← hs4]
        exact hlen
      · unfold curbufOk
        rw [← hs4]
        simp [List.length_set, hcb]
      · intro i hi
        rcases List.mem_cons.1 (hpermIdx.mem_iff.1 hi) with rfl | hmem
        · rw [hidx, hcnt]
          exact Nat.lt_succ_self _
        · rw [hcnt]
          exact Nat.lt_succ_of_lt (hbound i hmem)
      · have hfresh : nw.idx ∉ allIdxs s3 := fun hmem => by
          have := hbound nw.idx hmem
          rw [hidx] at this
          exact Nat.lt_irrefl _ this
        exact hpermIdx.symm.nodup (List.nodup_cons.2 ⟨hfresh, hnodup⟩)
      · intro l hl
        rw [hlists] at hl
        rcases List.mem_append.1 hl with hmem | hmem
        · exact hpw l (List.mem_append_left _ hmem)
        · refine pairwise_set_append _ cb nw hmap
            (fun l2 hl2 => hpw l2 (List.mem_append_right _ hl2)) ?_ l hmem
          intro a ha
          rw [hidx]
          exact idx_lt_of_mem s3 hbound
            (List.mem_append_right _ (getD_mem _ cb [] hmap)) ha

end SigMatchList

namespace SigMatchList

theorem bufferReuse_spec (s : SignatureInitData) (list : Nat) (hInv : Inv s) :
    Inv (bufferReuse s list) ∧ (bufferReuse s list).buffers = s.buffers ∧
      (bufferReuse s list).smlists = s.smlists ∧
      (bufferReuse s list).sm_cnt = s.sm_cnt := by
  obtain ⟨hlen, hcur, hbound, hnodup, hpw⟩ := hInv
  unfold bufferReuse
  cases hc : s.curbuf with
  | none => exact ⟨⟨hlen, hcur, hbound, hnodup, hpw⟩, rfl, rfl, rfl⟩
  | some cb =>
      dsimp only
      by_cases hid : (s.buffers.getD cb default).id ≠ list
      · rw [if_pos hid]
        cases hf : s.buffers.findIdx? (fun b => b.id == list && !b.multi_capable) with
        | none => exact ⟨⟨hlen, hcur, hbound, hnodup, hpw⟩, rfl, rfl, rfl⟩
        | some x =>
            refine ⟨⟨hlen, ?_, hbound, hnodup, hpw⟩, rfl, rfl, rfl⟩
            unfold curbufOk
            simp [findIdxQ_lt_length _ _ _ hf]
      · rw [if_neg hid]
        exact ⟨⟨hlen, hcur, hbound, hnodup, hpw⟩, rfl, rfl, rfl⟩

def pushBuf (s : SignatureInitData) (nb : SignatureInitDataBuffer)
    (bsz : Nat) : SignatureInitData :=
  { s with buffers := s.buffers ++ [nb], curbuf := some s.buffers.length,
           buffers_size := bsz }

theorem inv_push (s : SignatureInitData) (bsz : Nat) (nb : SignatureInitDataBuffer)
    (hsms : nb.sms = []) (hInv : Inv s) :
    Inv (pushBuf s nb bsz) ∧ allIdxs (pushBuf s nb bsz) = allIdxs s := by
  obtain ⟨hlen, hcur, hbound, hnodup, hpw⟩ := hInv
  have hlists : listsOf (pushBuf s nb bsz) = listsOf s ++ [[]] := by
    unfold listsOf pushBuf
    simp [hsms]
  have hidxs : allIdxs (pushBuf s nb bsz) = allIdxs s := by
    unfold allIdxs
    rw [hlists, List.flatten_append]
    simp
  refine ⟨⟨hlen, ?_, ?_, ?_, ?_⟩, hidxs⟩
  · unfold curbufOk pushBuf
    simp
  · rw [hidxs]
    exact hbound
  · rw [hidxs]
    exact hnodup
  · intro l hl
    rw [hlists] at hl
    rcases List.mem_append.1 hl with hmem | hmem
    · exact hpw l hmem
    · rw [List.mem_singleton.1 hmem]
      exact List.Pairwise.nil

theorem allocBuffer_spec (s : SignatureInitData) (list : Nat) (hInv : Inv s)
    (s3 : SignatureInitData) (halloc : allocBuffer s list = some s3) :
    Inv s3 ∧ s3.sm_cnt = s.sm_cnt ∧ allIdxs s3 = allIdxs s := by
  unfold allocBuffer SignatureInitDataBufferCheckExpand at halloc
  by_cases h64 : s.buffers_size ≥ 64
  · rw [if_pos h64] at halloc
    simp at halloc
  · rw [if_neg h64] at halloc
    by_cases hful : s.buffers.length + 1 = s.buffers_size
    · rw [if_pos hful] at halloc
      simp only [Option.some.injEq] at halloc
      subst halloc
      obtain ⟨hi, he⟩ := inv_push s (s.buffers_size + 8)
        { id := list, sms := [], sm_init := true, multi_capable := false,
          only_tc := s.force_toclient, only_ts := s.force_toserver } rfl
        hInv
      exact ⟨hi, rfl, he⟩
    · rw [if_neg hful] at halloc
      simp only [Option.some.injEq] at halloc
      subst halloc
      obtain ⟨hi, he⟩ := inv_push s s.buffers_size
        { id := list, sms := [], sm_init := true, multi_capable := false,
          only_tc := s.force_toclient, only_ts := s.force_toserver } rfl
        hInv
      exact ⟨hi, rfl, he⟩

theorem classicalAppend_spec (s : SignatureInitData) (nw : SigMatch) (list : Nat)
    (hInv : Inv s) (hidx : nw.idx = s.sm_cnt) (hcl : list < DETECT_SM_LIST_MAX) :
    Inv { s with smlists := s.smlists.set list (s.smlists.getD list [] ++ [nw]),
                 sm_cnt := s.sm_cnt + 1 } ∧
    List.Perm
      (allIdxs { s with smlists := s.smlists.set list (s.smlists.getD list [] ++ [nw]),
                        sm_cnt := s.sm_cnt + 1 })
      (nw.idx :: allIdxs s) := by
  obtain ⟨hlen, hcur, hbound, hnodup, hpw⟩ := hInv
  have hl : list < s.smlists.length := by rw [hlen]; exact hcl
  have hflat :
      List.Perm
        (listsOf { s with smlists := s.smlists.set list (s.smlists.getD list [] ++ [nw]),
                          sm_cnt := s.sm_cnt + 1 }).flatten
        (nw :: (listsOf s).flatten) := by
    unfold listsOf
    rw [List.flatten_append, List.flatten_append]
    have h1 := (flatten_set_append s.smlists list nw hl).append_right
      ((s.buffers.map (fun b => b.sms)).flatten)
    simpa using h1
  have hpermIdx :
      List.Perm
        (allIdxs { s with smlists := s.smlists.set list (s.smlists.getD list [] ++ [nw]),
                          sm_cnt := s.sm_cnt + 1 })
        (nw.idx :: allIdxs s) := by
    unfold allIdxs
    simpa using hflat.map SigMatch.idx
  refine ⟨⟨?_, ?_, ?_, ?_, ?_⟩, hpermIdx⟩
  · simp [List.length_set, hlen]
  · exact hcur
  · intro i hi
    rcases List.mem_cons.1 (hpermIdx.mem_iff.1 hi) with rfl | hmem
    · rw [hidx]
      exact Nat.lt_succ_self _
    · exact Nat.lt_succ_of_lt (hbound i hmem)
  · have hfresh : nw.idx ∉ allIdxs s := fun hmem => by
      have := hbound nw.idx hmem
      rw [hidx] at this
      exact Nat.lt_irrefl _ this
    exact hpermIdx.symm.nodup (List.nodup_cons.2 ⟨hfresh, hnodup⟩)
  · intro l hl2
    rcases List.mem_append.1 hl2 with hmem | hmem
    · refine pairwise_set_append s.smlists list nw hl
        (fun l2 hl3 => hpw l2 (List.mem_append_left _ hl3)) ?_ l hmem
      intro a ha
      rw [hidx]
      exact idx_lt_of_mem s hbound
        (List.mem_append_left _ (getD_mem _ list [] hl)) ha
    · exact hpw l (List.mem_append_right _ hmem)

theorem transfer_spec (sm : SigMatch) (src dst : List SigMatch) (h : sm ∈ src) :
    List.Perm ((SigMatchTransferSigMatchAcrossLists sm src dst).1 ++
        (SigMatchTransferSigMatchAcrossLists sm src dst).2) (src ++ dst) ∧
    (SigMatchTransferSigMatchAcrossLists sm src dst).2 = dst ++ [sm] := by
  unfold SigMatchTransferSigMatchAcrossLists
  refine ⟨?_, rfl⟩
  have hmid : List.Perm (dst ++ sm :: ([] : List SigMatch)) (sm :: (dst ++ [])) :=
    List.perm_middle
  have h1 : List.Perm (dst ++ [sm]) (sm :: dst) := by
    simp only [List.append_nil] at hmid
    exact hmid
  have h2 := h1.append_left (src.erase sm)
  have h3 : List.Perm (src.erase sm ++ (sm :: dst)) (sm :: (src.erase sm ++ dst)) :=
    List.perm_middle
  have h4 : List.Perm (sm :: src.erase sm) src := (List.perm_cons_erase h).symm
  have h5 := h4.append_right dst
  exact (h2.trans h3).trans h5

end SigMatchList

/-- C1: for every successful `SCSigMatchAppendSMToList` on a well-formed
build state, the state invariant is preserved: each attached match instance
belongs to exactly one list (one classical smlists slot or exactly one
sticky buffer — the idx values stay globally distinct), the new instance
receives `idx = sm_cnt`, strictly greater than every previously assigned
idx, and `sm_cnt` increments, so idx values are unique and strictly
increasing in attachment order across the whole signature; and
`SigMatchTransferSigMatchAcrossLists` relocates an instance between lists
without changing it (the relocated node, with its idx, ends at the
destination tail and the combined contents are preserved). -/
theorem claim_C1 (s : SigMatchList.SignatureInitData) (type list : Nat)
    (s2 : SigMatchList.SignatureInitData) (nw : SigMatchList.SigMatch)
    (hInv : SigMatchList.Inv s)
    (happ : SigMatchList.SCSigMatchAppendSMToList s type list = some (s2, nw)) :
    SigMatchList.Inv s2 ∧ nw.idx = s.sm_cnt ∧ s2.sm_cnt = s.sm_cnt + 1 ∧
    (∀ i ∈ SigMatchList.allIdxs s, i < nw.idx) ∧
    List.Perm (SigMatchList.allIdxs s2) (nw.idx :: SigMatchList.allIdxs s) ∧
    (∀ (sm : SigMatchList.SigMatch) (src dst : List SigMatchList.SigMatch),
      sm ∈ src →
      List.Perm ((SigMatchList.SigMatchTransferSigMatchAcrossLists sm src dst).1 ++
          (SigMatchList.SigMatchTransferSigMatchAcrossLists sm src dst).2)
        (src ++ dst) ∧
      (SigMatchList.SigMatchTransferSigMatchAcrossLists sm src dst).2 = dst ++ [sm]) := by
  have hbound0 := hInv.2.2.1
  unfold SigMatchList.SCSigMatchAppendSMToList at happ
  by_cases hcl : list < SigMatchList.DETECT_SM_LIST_MAX
  · rw [if_pos hcl] at happ
    simp only [Option.some.injEq, Prod.mk.injEq] at happ
    obtain ⟨hs2, hnw⟩ := happ
    subst hnw
    subst hs2
    obtain ⟨hi, hp⟩ := SigMatchList.classicalAppend_spec s
      { type := type, idx := s.sm_cnt } list hInv rfl hcl
    refine ⟨hi, rfl, rfl, ?_, hp,
      fun sm src dst h => SigMatchList.transfer_spec sm src dst h⟩
    intro i hi2
    exact hbound0 i hi2
  · rw [if_neg hcl] at happ
    obtain ⟨hInv1, hb1, hsm1, hcnt1⟩ := SigMatchList.bufferReuse_spec s list hInv
    have hidxs1 : SigMatchList.allIdxs (SigMatchList.bufferReuse s list) =
        SigMatchList.allIdxs s := by
      unfold SigMatchList.allIdxs SigMatchList.listsOf
      rw [hb1, hsm1]
    by_cases hneed :
        SigMatchList.needNewBuffer (SigMatchList.bufferReuse s list) list = true
    · rw [if_pos hneed] at happ
      cases halloc : SigMatchList.allocBuffer (SigMatchList.bufferReuse s list) list with
      | none =>
          rw [halloc] at happ
          simp at happ
      | some s3 =>
          rw [halloc] at happ
          obtain ⟨hInv3, hcnt3, hidxs3⟩ :=
            SigMatchList.allocBuffer_spec _ list hInv1 s3 halloc
          obtain ⟨hnw2, hInv4, hcnt4, hperm4⟩ :=
            SigMatchList.appendToCurbuf_spec s3 _ hInv3
              (by rw [hcnt3, hcnt1]) s2 nw happ
          subst hnw2
          rw [hidxs3, hidxs1] at hperm4
          refine ⟨hInv4, rfl, ?_, ?_, hperm4,
            fun sm src dst h => SigMatchList.transfer_spec sm src dst h⟩
          · rw [hcnt4, hcnt3, hcnt1]
          · intro i hi2
            exact hbound0 i hi2
    · rw [if_neg hneed] at happ
      obtain ⟨hnw2, hInv4, hcnt4, hperm4⟩ :=
        SigMatchList.appendToCurbuf_spec (SigMatchList.bufferReuse s list) _ hInv1
          (by rw [hcnt1]) s2 nw happ
      subst hnw2
      rw [hidxs1] at hperm4
      refine ⟨hInv4, rfl, ?_, ?_, hperm4,
        fun sm src dst h => SigMatchList.transfer_spec sm src dst h⟩
      · rw [hcnt4, hcnt1]
      · intro i hi2
        exact hbound0 i hi2

/-- An empty build state, as `SigAlloc` creates it: all classical slots
empty, no buffers, vector capacity 8. -/
def c1s0 : SigMatchList.SignatureInitData :=
  { smlists := List.replicate 8 [], buffers := [], curbuf := none,
    sm_cnt := 0, buffers_size := 8, force_toclient := false,
    force_toserver := false }

/-- The state after appending one match to sticky-buffer list 100. -/
def c1res : SigMatchList.SignatureInitData :=
  { smlists := List.replicate 8 [],
    buffers := [{ id := 100, sms := [{ type := 1, idx := 0 }], sm_init := true,
                  multi_capable := false, only_ts := false, only_tc := false }],
    curbuf := some 0, sm_cnt := 1, buffers_size := 8,
    force_toclient := false, force_toserver := false }

/-- Witness for C1: a concrete sticky-buffer append from the empty state
preserves the invariant and assigns idx 0, and a concrete transfer moves
the node to the destination tail unchanged. -/
theorem claim_C1_witness :
    SigMatchList.Inv c1res ∧
    List.Perm (SigMatchList.allIdxs c1res)
      (({ type := 1, idx := 0 } : SigMatchList.SigMatch).idx ::
        SigMatchList.allIdxs c1s0) ∧
    (SigMatchList.SigMatchTransferSigMatchAcrossLists { type := 1, idx := 0 }
        [{ type := 1, idx := 0 }] []).2 = [] ++ [{ type := 1, idx := 0 }] :=
  have h := claim_C1 c1s0 1 100 c1res { type := 1, idx := 0 }
    (by decide) (by decide)
  ⟨h.1, h.2.2.2.2.1,
    (h.2.2.2.2.2 { type := 1, idx := 0 } [{ type := 1, idx := 0 }] []
      (by decide)).2⟩
